import Mathlib

/-!
Shallow embedding of the Webgrab extension's batch-scoped archival store
(src/background.js) and proofs about its operations.

The IndexedDB object stores are modelled as lists of records: the `batches`
store is keyed by `id` and the `pages` store is keyed by `url`, so `put` is
replace-or-append on the key and `add` fails when the key is present.
Timestamps and UUIDs are opaque strings supplied by the caller.
-/

deriving instance DecidableEq for Except

namespace Webgrab

/-- A record of the `batches` object store (keyPath `id`). -/
structure Batch where
  id : String
  name : String
  createdAt : String
  lastSavedAt : Option String
  pageCount : Nat
  deriving Repr, DecidableEq

/-- A record of the `pages` object store (keyPath `url`, index on `batchId`). -/
structure Page where
  url : String
  batchId : String
  site : String
  params : String
  html_content : String
  retrieved_at : String
  deriving Repr, DecidableEq

/-- The contents of the two object stores of WebgrabDB. -/
structure DbState where
  batches : List Batch
  pages : List Page
  deriving Repr, DecidableEq

def dbEmpty : DbState := ⟨[], []⟩

/-- Character-wise lowercasing, modelling JavaScript
`String.prototype.toLowerCase` as used for the case-insensitive name check. -/
def strLower (x : String) : String := ⟨x.data.map Char.toLower⟩

/-- Code-unit prefix of a string, modelling `String.prototype.substring(0, n)`. -/
def strTake (x : String) (n : Nat) : String := ⟨x.data.take n⟩

/-- IndexedDB `put` on the pages store: replace the record with the same
`url` key, or append a fresh record. -/
def putPage (p : Page) (ps : List Page) : List Page :=
  if ps.any (fun x => x.url == p.url) then
    ps.map (fun x => if x.url == p.url then p else x)
  else ps ++ [p]

/-- IndexedDB `put` on the batches store: replace the record with the same
`id` key, or append a fresh record. -/
def putBatch (b : Batch) (bs : List Batch) : List Batch :=
  if bs.any (fun x => x.id == b.id) then
    bs.map (fun x => if x.id == b.id then b else x)
  else bs ++ [b]

/-- IndexedDB `get` on the batches store by `id` key. -/
def findBatch? (batchId : String) (bs : List Batch) : Option Batch :=
  bs.find? (fun b => b.id == batchId)

/-- IndexedDB `get`/`getKey` membership on the pages store by `url` key. -/
def findPage? (url : String) (ps : List Page) : Option Page :=
  ps.find? (fun p => p.url == url)

/-- Comparator used by `getAllBatchesFromDb`: the JS code sorts by
`name.toLowerCase()` with `localeCompare`, modelled as lexicographic order
on the lowercased names. -/
def batchNameLE (a b : Batch) : Bool := decide (strLower a.name ≤ strLower b.name)

/-- One insertion step of the sort used by `getAllBatchesFromDb`. -/
def insertByName (b : Batch) : List Batch → List Batch
  | [] => [b]
  | x :: xs => if batchNameLE b x then b :: x :: xs else x :: insertByName b xs

/-- The `Array.prototype.sort` call of `getAllBatchesFromDb`, modelled as an
insertion sort over the `batchNameLE` comparator. -/
def sortBatchesByName : List Batch → List Batch
  | [] => []
  | x :: xs => insertByName x (sortBatchesByName xs)

/-- Success path of `getAllBatchesFromDb` in src/background.js: all batch
records, sorted alphabetically by name, case-insensitively. -/
def getAllBatchesFromDb (s : DbState) : List Batch :=
  sortBatchesByName s.batches

inductive CreateError where
  | emptyName
  | nameConflict
  | storageError
  deriving Repr, DecidableEq

/-- The batch object built by `createBatchInDb` on success:
`pageCount = 0`, `lastSavedAt = null`, `createdAt = now`. -/
def mkNewBatch (newId name now : String) : Batch :=
  { id := newId, name := name, createdAt := now, lastSavedAt := none, pageCount := 0 }

/-- The uniqueness check of `createBatchInDb`: it runs `getAllBatchesFromDb`
in its own (readonly) transaction, before the readwrite transaction that
inserts, and tests `batch.name.toLowerCase() === name.toLowerCase()`. -/
def createCheckConflict (name : String) (s : DbState) : Bool :=
  (getAllBatchesFromDb s).any (fun b => strLower b.name == strLower name)

/-- The insert phase of `createBatchInDb`: `store.add(newBatch)` inside a
separate readwrite transaction on the batches store. -/
def createInsert (newId now name : String) (s : DbState) : DbState :=
  { s with batches := s.batches ++ [mkNewBatch newId name now] }

/-- `createBatchInDb(name)` from src/background.js. `if (!name)` rejects
exactly the empty string; the conflict check reads the store in a separate
transaction; `store.add` fails when the `id` key already exists. -/
def createBatchInDb (newId now name : String) (s : DbState) :
    Except CreateError Batch × DbState :=
  if name = "" then (.error .emptyName, s)
  else if createCheckConflict name s then (.error .nameConflict, s)
  else if s.batches.any (fun b => b.id == newId) then (.error .storageError, s)
  else (.ok (mkNewBatch newId name now), createInsert newId now name s)

/-- The exists-check of `addPageToDb`: `pageStore.getKey(pageData.url)` in
its own readonly transaction, before the readwrite transaction. -/
def pageExistsCheck (url : String) (s : DbState) : Bool :=
  s.pages.any (fun p => p.url == url)

/-- The readwrite transaction of `addPageToDb`, driven by the previously
computed `pageExists` flag: `pageStore.put(pageRecord)` always runs; when the
flag is false the batch (if found) gets `pageCount + 1` and a fresh
`lastSavedAt`, when it is true only `lastSavedAt` is refreshed; when the batch
is not found the code only warns and the page is still written. -/
def savePageWrite (pageExists : Bool) (p : Page) (s : DbState) : DbState :=
  let pages' := putPage p s.pages
  let batches' :=
    match findBatch? p.batchId s.batches with
    | some b =>
        let b' :=
          if pageExists then { b with lastSavedAt := some p.retrieved_at }
          else { b with pageCount := b.pageCount + 1, lastSavedAt := some p.retrieved_at }
        putBatch b' s.batches
    | none => s.batches
  { batches := batches', pages := pages' }

/-- `addPageToDb(pageData)` from src/background.js: the stale exists-check
followed by the write transaction; the transaction completes and the promise
resolves with success in every branch. -/
def addPageToDb (p : Page) (s : DbState) : Except String Unit × DbState :=
  (.ok (), savePageWrite (pageExistsCheck p.url s) p s)

/-- `getPagesForBatch(batchId)`: `batchIdIndex` scan of the pages store. -/
def getPagesForBatch (batchId : String) (s : DbState) : List Page :=
  s.pages.filter (fun p => p.batchId == batchId)

/-- `deleteBatchAndPages(batchId)`: one readwrite transaction deleting the
batch record and, via a cursor on `batchIdIndex`, every page whose `batchId`
matches. `txFail = true` models the transaction erroring/aborting, in which
case IndexedDB rolls back and the promise rejects. -/
def deleteBatchAndPages (txFail : Bool) (batchId : String) (s : DbState) :
    Except String Nat × DbState :=
  if txFail then (.error "Transaction failed", s)
  else
    (.ok (s.pages.filter (fun p => p.batchId == batchId)).length,
     { batches := s.batches.filter (fun b => !(b.id == batchId)),
       pages := s.pages.filter (fun p => !(p.batchId == batchId)) })

/-- The pageCount invariant: every batch record's `pageCount` field equals
the number of page records linked to it. -/
def countConsistent (s : DbState) : Prop :=
  ∀ b ∈ s.batches, b.pageCount = (s.pages.filter (fun p => p.batchId == b.id)).length

instance (s : DbState) : Decidable (countConsistent s) := by
  unfold countConsistent; infer_instance

/-- JSON string escaping as performed by `JSON.stringify` on the fields that
occur in a page record (quotes, backslashes and newlines). -/
def escapeJsonChar (c : Char) : String :=
  if c = '"' then "\\\"" else if c = '\\' then "\\\\"
  else if c = '\n' then "\\n" else String.singleton c

def jsonStr (x : String) : String :=
  "\"" ++ String.join (x.data.map escapeJsonChar) ++ "\""

/-- `JSON.stringify(page)` for one page record. -/
def encodePage (p : Page) : String :=
  "\x7b\"url\":" ++ jsonStr p.url ++ ",\"batchId\":" ++ jsonStr p.batchId ++
  ",\"site\":" ++ jsonStr p.site ++ ",\"params\":" ++ jsonStr p.params ++
  ",\"html_content\":" ++ jsonStr p.html_content ++
  ",\"retrieved_at\":" ++ jsonStr p.retrieved_at ++ "\x7d"

/-- The character class kept by the filename sanitizer in src/background.js:
`replace(/[^a-z0-9_-]/gi, '_')` keeps ASCII letters, digits, underscore and
hyphen. -/
def allowedFilenameChar (c : Char) : Bool :=
  ('a' ≤ c && c ≤ 'z') || ('A' ≤ c && c ≤ 'Z') || ('0' ≤ c && c ≤ '9') ||
    c = '_' || c = '-'

def sanitizeChar (c : Char) : Char :=
  if allowedFilenameChar c then c else '_'

/-- `request.batchName.replace(/[^a-z0-9_-]/gi, '_').substring(0, 50)`. -/
def safeBatchName (name : String) : String :=
  strTake ⟨name.data.map sanitizeChar⟩ 50

/-- `new Date().toISOString().replace(/[:.]/g, '-')`. -/
def exportTimestamp (iso : String) : String :=
  ⟨iso.data.map (fun c => if c = ':' || c = '.' then '-' else c)⟩

/-- The export filename built in the `exportBatch` case of the dispatcher. -/
def exportFilename (batchName batchId iso : String) : String :=
  "webgrab_batch_" ++ safeBatchName batchName ++ "_" ++ strTake batchId 8 ++
    "_" ++ exportTimestamp iso ++ ".jsonl"

/-- The character class the claim says is kept: `[a-zA-Z0-9_.-]`, the dot
included. Stated from the claim's words, for comparison with the
source-derived `allowedFilenameChar`. -/
def claimAllowedFilenameChar (c : Char) : Bool :=
  ('a' ≤ c && c ≤ 'z') || ('A' ≤ c && c ≤ 'Z') || ('0' ≤ c && c ≤ '9') ||
    c = '_' || c = '.' || c = '-'

/-- The sanitizer the claim describes: replace every character outside
`[a-zA-Z0-9_.-]` with an underscore, truncate to the bounded length. Stated
from the claim's words, for comparison with the source-derived
`safeBatchName`. -/
def claimSafeBatchName (name : String) : String :=
  strTake ⟨name.data.map (fun c => if claimAllowedFilenameChar c then c else '_')⟩ 50

/-- A file handed to `chrome.downloads.download` via a blob URL. -/
structure DownloadArtifact where
  filename : String
  content : String
  deriving Repr, DecidableEq

inductive ExportResponse where
  | success
  | error (msg : String)
  deriving Repr, DecidableEq

/-- What the `exportBatch` dispatcher case produced: the response sent back
to the popup, whether `chrome.downloads.download` was invoked, and the
artifact it delivered when the download gets initiated. -/
structure ExportOutcome where
  response : ExportResponse
  downloadInvoked : Bool
  download : Option DownloadArtifact
  deriving Repr, DecidableEq

/-- The `exportBatch` case of the message dispatcher in src/background.js.
`getPagesForBatch` always yields an array, so the `if (!pages)` guard of the
source is never taken; the blob and filename are built and the download is
invoked even when the page list is empty. `downloadFail` models
`chrome.runtime.lastError` being set by the downloads API. -/
def exportBatchCase (downloadFail : Bool) (batchId batchName iso : String)
    (s : DbState) : ExportOutcome :=
  if batchId = "" || batchName = "" then
    ⟨.error "Missing batchId or batchName for export.", false, none⟩
  else
    let pages := getPagesForBatch batchId s
    let jsonlData := String.intercalate "\n" (pages.map encodePage)
    let filename := exportFilename batchName batchId iso
    if downloadFail then ⟨.error "Download initiation failed", true, none⟩
    else ⟨.success, true, some ⟨filename, jsonlData⟩⟩

/-- The failure channels of `getAllBatchesFromDb`: `openFail` models
`openDb()` rejecting or `transaction(...)` throwing, which the function's
try/catch turns into an empty array; `getAllFail` models the `getAll`
request erroring, which rejects the promise the function has already
returned, so the rejection propagates to the caller uncaught. -/
inductive StorageFailure where
  | ok
  | openFail
  | getAllFail
  deriving Repr, DecidableEq

/-- `getAllBatchesFromDb` with its failure channels made explicit. -/
def getAllBatchesFromDbF (f : StorageFailure) (s : DbState) :
    Except String (List Batch) :=
  match f with
  | .ok => .ok (getAllBatchesFromDb s)
  | .openFail => .ok []
  | .getAllFail => .error "Error getting all batches"

inductive Response where
  | success (batches : List Batch)
  | error (msg : String)
  deriving Repr, DecidableEq

/-- The `getBatches` case of the message dispatcher: a resolved list is sent
as a success payload; a rejection reaches the dispatcher's catch block and
is sent as an error payload. -/
def handleGetBatches (f : StorageFailure) (s : DbState) : Response :=
  match getAllBatchesFromDbF f s with
  | .ok bs => .success bs
  | .error e => .error e

/-- A store holding one batch and no pages, used as a concrete input. -/
def sampleBatch : Batch := mkNewBatch "b1" "Alpha" "t0"

def sampleState : DbState := ⟨[sampleBatch], []⟩

/-- A page save aimed at a batch id that does not exist in `sampleState`. -/
def orphanPg : Page :=
  { url := "https://x.test/p", batchId := "missing", site := "x.test",
    params := "", html_content := "<html></html>", retrieved_at := "t1" }

/-- The same URL saved into batch `idA` and then into batch `idB`. -/
def pgA : Page := ⟨"https://u.test/", "idA", "u.test", "", "h1", "t1"⟩

def pgB : Page := ⟨"https://u.test/", "idB", "u.test", "", "h2", "t2"⟩

/-- createBatch A, createBatch B, save a URL into A, re-save it into B. -/
def crossBatchState : DbState :=
  (addPageToDb pgB
    (addPageToDb pgA
      (createBatchInDb "idB" "t" "B"
        (createBatchInDb "idA" "t" "A" dbEmpty).2).2).2).2

/-- A store with one batch and no pages, for the concurrent-save scenario. -/
def raceBatch : Batch := mkNewBatch "bA" "Jobs" "t0"

def raceState : DbState := ⟨[raceBatch], []⟩

/-- Two concurrent saves of the same (new) URL into batch `bA`. -/
def racePg1 : Page := ⟨"https://r.test/", "bA", "r.test", "", "h1", "t1"⟩

def racePg2 : Page := ⟨"https://r.test/", "bA", "r.test", "", "h2", "t2"⟩

end Webgrab

namespace Webgrab

/-! ### Helper lemmas about the sort used by getAllBatchesFromDb -/

theorem insertByName_perm (b : Batch) (l : List Batch) :
    (insertByName b l).Perm (b :: l) := by
  induction l with
  | nil => exact List.Perm.refl _
  | cons x xs ih =>
    unfold insertByName
    split
    · exact List.Perm.refl _
    · exact (ih.cons x).trans (List.Perm.swap b x xs)

theorem sortBatchesByName_perm (l : List Batch) : (sortBatchesByName l).Perm l := by
  induction l with
  | nil => exact List.Perm.refl _
  | cons x xs ih => exact (insertByName_perm x _).trans (ih.cons x)

theorem sortBatchesByName_any (l : List Batch) (p : Batch → Bool) :
    (sortBatchesByName l).any p = l.any p := by
  cases h2 : l.any p with
  | true =>
    rw [List.any_eq_true] at h2 ⊢
    obtain ⟨x, hx, hpx⟩ := h2
    exact ⟨x, (sortBatchesByName_perm l).mem_iff.mpr hx, hpx⟩
  | false =>
    rw [List.any_eq_false] at h2
    rw [List.any_eq_false]
    intro x hx
    exact h2 x ((sortBatchesByName_perm l).mem_iff.mp hx)

theorem mem_of_mem_sortBatchesByName {b : Batch} {l : List Batch}
    (h : b ∈ sortBatchesByName l) : b ∈ l :=
  (sortBatchesByName_perm l).mem_iff.mp h

theorem strLower_eq_empty {x : String} (h : strLower x = "") : x = "" := by
  have hd : x.data.map Char.toLower = [] := congrArg String.data h
  exact String.ext (List.map_eq_nil_iff.mp hd)

end Webgrab

namespace Webgrab

/-! ### Claim C1 -/

/-- Claim C1, as stated, is false on the code: saving a page whose `batchId`
references no existing batch does not fail, and the pages store is changed.
With `sampleState` holding only batch `b1`, `addPageToDb` on a page aimed at
batch id `missing` resolves with success and writes the page. -/
theorem c1_counterexample :
    findBatch? orphanPg.batchId sampleState.batches = none ∧
    (addPageToDb orphanPg sampleState).1 = .ok () ∧
    (addPageToDb orphanPg sampleState).2.pages ≠ sampleState.pages := by decide

/-- Claim C1 (amended): when no batch with id `p.batchId` exists,
`addPageToDb` still succeeds, the page is upserted into the pages store (an
orphan page), and only the batches store is left unchanged. -/
theorem c1_amended (s : DbState) (p : Page)
    (hmiss : findBatch? p.batchId s.batches = none) :
    (addPageToDb p s).1 = .ok () ∧
    (addPageToDb p s).2 = ⟨s.batches, putPage p s.pages⟩ := by
  refine ⟨rfl, ?_⟩
  simp [addPageToDb, savePageWrite, hmiss]

/-- Witness for `c1_amended` at a concrete store and page. -/
theorem c1_amended_witness :
    (addPageToDb orphanPg sampleState).1 = .ok () ∧
    (addPageToDb orphanPg sampleState).2
      = ⟨sampleState.batches, putPage orphanPg sampleState.pages⟩ :=
  c1_amended sampleState orphanPg (by decide)

/-! ### Claim C5 -/

/-- Claim C5, as stated, is false on the code: `if (!name)` only rejects the
empty string, so the whitespace-only name consisting of one space is
accepted and a batch is persisted for it. -/
theorem c5_counterexample :
    (" ").data ≠ [] ∧
    (" ").data.all Char.isWhitespace = true ∧
    (createBatchInDb "id1" "t0" " " dbEmpty).1 = .ok (mkNewBatch "id1" " " "t0") := by
  decide

/-- Claim C5 (amended): `createBatchInDb` fails with the empty-name error
exactly when the name is the empty string (whitespace-only names are
accepted), and on success the persisted batch has `pageCount = 0`,
`lastSavedAt = null` and `createdAt = now`. -/
theorem c5_amended (newId now name : String) (s : DbState) :
    (((createBatchInDb newId now name s).1 = .error .emptyName) ↔ name = "") ∧
    (∀ b, (createBatchInDb newId now name s).1 = .ok b →
      b.pageCount = 0 ∧ b.lastSavedAt = none ∧ b.createdAt = now) := by
  constructor
  · unfold createBatchInDb
    by_cases h1 : name = ""
    · simp [h1]
    · simp only [h1, if_false, iff_false]
      split
      · simp
      · split <;> simp
  · intro b hb
    unfold createBatchInDb at hb
    by_cases h1 : name = ""
    · simp [h1] at hb
    · simp only [h1, if_false] at hb
      split at hb
      · simp at hb
      · split at hb
        · simp at hb
        · simp only [Prod.fst] at hb
          cases hb with
          | refl => exact ⟨rfl, rfl, rfl⟩

/-- Witness for `c5_amended` at a concrete input. -/
theorem c5_amended_witness :
    (((createBatchInDb "id1" "t0" "" dbEmpty).1 = .error .emptyName) ↔ ("" : String) = "") ∧
    (∀ b, (createBatchInDb "id1" "t0" "" dbEmpty).1 = .ok b →
      b.pageCount = 0 ∧ b.lastSavedAt = none ∧ b.createdAt = "t0") :=
  c5_amended "id1" "t0" "" dbEmpty

end Webgrab

namespace Webgrab

/-! ### Claim C7 -/

/-- Claim C7, as stated, is false on the code: `if (!pages)` never fires for
an empty array, so exporting batch `b1`, which has zero pages, still invokes
`chrome.downloads.download` and delivers a `.jsonl` artifact with empty
content, and the response is the generic success, not a distinct empty
status. -/
theorem c7_counterexample :
    getPagesForBatch "b1" sampleState = [] ∧
    (exportBatchCase false "b1" "Alpha" "ts" sampleState).downloadInvoked = true ∧
    (exportBatchCase false "b1" "Alpha" "ts" sampleState).download
      = some ⟨exportFilename "Alpha" "b1" "ts", ""⟩ ∧
    (exportBatchCase false "b1" "Alpha" "ts" sampleState).response = .success := by
  decide

/-- Claim C7 (amended): exporting a batch with zero linked pages is treated
like any other export: the download is invoked with an empty-content file
and, when the download initiates, the generic success response is sent; no
distinct empty-status outcome exists. -/
theorem c7_amended (s : DbState) (bid name iso : String)
    (hbid : bid ≠ "") (hname : name ≠ "")
    (hempty : getPagesForBatch bid s = []) :
    exportBatchCase false bid name iso s
      = ⟨.success, true, some ⟨exportFilename name bid iso, ""⟩⟩ := by
  unfold exportBatchCase
  rw [if_neg (by simp [hbid, hname])]
  simp only [hempty, List.map_nil]
  rfl

/-- Witness for `c7_amended` on the concrete zero-page batch `b1`. -/
theorem c7_amended_witness :
    exportBatchCase false "b1" "Alpha" "ts" sampleState
      = ⟨.success, true, some ⟨exportFilename "Alpha" "b1" "ts", ""⟩⟩ :=
  c7_amended sampleState "b1" "Alpha" "ts" (by decide) (by decide) (by decide)

/-! ### Claim C10 -/

/-- Claim C10, as stated, is false on the code: a failure of the `getAll`
request rejects the promise that `getAllBatchesFromDb` has already returned,
so the rejection escapes the function's try/catch and the dispatcher's catch
block sends an error response, not a success with an empty list. -/
theorem c10_counterexample :
    getAllBatchesFromDbF .getAllFail sampleState = .error "Error getting all batches" ∧
    handleGetBatches .getAllFail sampleState = .error "Error getting all batches" ∧
    handleGetBatches .getAllFail sampleState ≠ .success [] := by decide

/-- Claim C10 (amended): only failures caught by the try/catch (opening the
database or creating the transaction) produce the empty list, which the
dispatcher reports as a success indistinguishable from an empty store; a
failure of the `getAll` request itself surfaces as an error response. -/
theorem c10_amended (s : DbState) :
    handleGetBatches .openFail s = .success [] ∧
    handleGetBatches .openFail s = handleGetBatches .ok dbEmpty ∧
    handleGetBatches .getAllFail s = .error "Error getting all batches" :=
  ⟨rfl, rfl, rfl⟩

end Webgrab

namespace Webgrab

/-! ### Claim C9 -/

theorem allowed_sanitizeChar (c : Char) : allowedFilenameChar (sanitizeChar c) = true := by
  unfold sanitizeChar
  split
  · assumption
  · decide

theorem tsChar_of_digit (c : Char) (h : c.isDigit = true) :
    (if c = ':' || c = '.' then '-' else c) = c := by
  rw [if_neg]
  simp only [Bool.or_eq_true, decide_eq_true_eq, not_or]
  constructor
  · rintro rfl; exact absurd h (by decide)
  · rintro rfl; exact absurd h (by decide)

/-- Claim C9, as stated, is false on the code: the claim's character class
`[a-zA-Z0-9_.-]` keeps the dot, but the source's
`replace(/[^a-z0-9_-]/gi, '_')` does not, so the batch name `a.b` is
sanitized to `a_b`, not kept as `a.b`. -/
theorem c9_counterexample :
    claimAllowedFilenameChar '.' = true ∧
    claimSafeBatchName "a.b" = "a.b" ∧
    safeBatchName "a.b" = "a_b" ∧
    exportFilename "a.b" "batchid-12345" "2025-01-01T00:00:00.000Z"
      = "webgrab_batch_a_b_batchid-_2025-01-01T00-00-00-000Z.jsonl" ∧
    safeBatchName "a.b" ≠ claimSafeBatchName "a.b" := by decide

/-- Claim C9 (amended): the export filename replaces every batch-name
character outside `[a-zA-Z0-9_-]` (the dot is not kept) with an underscore,
truncates the result to 50 characters, and appends the first 8 characters of
the batch id and the sanitized timestamp; two exports whose timestamps have
equal length and differ at a digit position produce distinct filenames. -/
theorem c9_amended (name bid iso1 iso2 : String) (i : Nat)
    (hlen : iso1.data.length = iso2.data.length)
    (hi1 : i < iso1.data.length) (hi2 : i < iso2.data.length)
    (hd1 : (iso1.data.get ⟨i, hi1⟩).isDigit = true)
    (hd2 : (iso2.data.get ⟨i, hi2⟩).isDigit = true)
    (hne : iso1.data.get ⟨i, hi1⟩ ≠ iso2.data.get ⟨i, hi2⟩) :
    (∀ c ∈ (safeBatchName name).data, allowedFilenameChar c = true) ∧
    (safeBatchName name).length ≤ 50 ∧
    exportFilename name bid iso1 ≠ exportFilename name bid iso2 := by
  refine ⟨?_, ?_, ?_⟩
  · intro c hc
    simp only [safeBatchName, strTake] at hc
    have hc2 := List.mem_of_mem_take hc
    obtain ⟨x, _, hx⟩ := List.mem_map.mp hc2
    rw [← hx]
    exact allowed_sanitizeChar x
  · show (safeBatchName name).data.length ≤ 50
    simp only [safeBatchName, strTake]
    rw [List.length_take]
    exact min_le_left _ _
  · intro hEq
    apply hne
    have hdata := congrArg String.data hEq
    simp only [exportFilename, String.data_append, List.append_assoc] at hdata
    have h2 := List.append_cancel_left hdata
    have h3 := List.append_cancel_left h2
    have h4 := List.append_cancel_left h3
    have h5 := List.append_cancel_left h4
    have h6 := List.append_cancel_left h5
    have hTlen : (exportTimestamp iso1).data.length = (exportTimestamp iso2).data.length := by
      simp [exportTimestamp, hlen]
    have h7 : (exportTimestamp iso1).data = (exportTimestamp iso2).data :=
      (List.append_inj h6 hTlen).1
    simp only [exportTimestamp] at h7
    have h8 : (iso1.data.map (fun c => if c = ':' || c = '.' then '-' else c))[i]?
        = (iso2.data.map (fun c => if c = ':' || c = '.' then '-' else c))[i]? := by
      rw [h7]
    rw [List.getElem?_map, List.getElem?_map] at h8
    rw [List.getElem?_eq_getElem hi1, List.getElem?_eq_getElem hi2] at h8
    simp only [Option.map_some'] at h8
    have h9 := Option.some.inj h8
    simp only [List.get_eq_getElem] at hd1 hd2 ⊢
    rwa [tsChar_of_digit _ hd1, tsChar_of_digit _ hd2] at h9

/-- Witness for `c9_amended`: two ISO timestamps one second apart yield
distinct export filenames for the same batch. -/
theorem c9_amended_witness :
    exportFilename "Report" "batchid-12345" "2025-01-01T00:00:00.000Z"
      ≠ exportFilename "Report" "batchid-12345" "2025-01-01T00:00:01.000Z" :=
  (c9_amended "Report" "batchid-12345" "2025-01-01T00:00:00.000Z"
    "2025-01-01T00:00:01.000Z" 18 (by decide) (by decide) (by decide)
    (by decide) (by decide) (by decide)).2.2

end Webgrab

namespace Webgrab

/-! ### Claim C4 -/

theorem createCheckConflict_iff (name : String) (s : DbState) :
    createCheckConflict name s = true ↔ ∃ b ∈ s.batches, strLower b.name = strLower name := by
  unfold createCheckConflict getAllBatchesFromDb
  rw [sortBatchesByName_any, List.any_eq_true]
  constructor
  · rintro ⟨b, hb, hpb⟩
    exact ⟨b, hb, by simpa using hpb⟩
  · rintro ⟨b, hb, hpb⟩
    exact ⟨b, hb, by simpa using hpb⟩

/-- Claim C4: if `createBatchInDb` succeeds for a name, a second call with
any name equal after case folding fails with the name-conflict error and
leaves the store unchanged; moreover, for non-empty names, the call fails
with the name-conflict error exactly when a batch with a case-insensitively
equal name is already stored. -/
theorem c4_name_conflict (s : DbState) (n1 n2 id1 id2 t1 t2 : String)
    (hci : strLower n1 = strLower n2)
    (hok : ∃ b, (createBatchInDb id1 t1 n1 s).1 = .ok b) :
    ((createBatchInDb id2 t2 n2 (createBatchInDb id1 t1 n1 s).2).1 = .error .nameConflict ∧
     (createBatchInDb id2 t2 n2 (createBatchInDb id1 t1 n1 s).2).2
        = (createBatchInDb id1 t1 n1 s).2) ∧
    (∀ nm idn tn, nm ≠ "" →
      (((createBatchInDb idn tn nm s).1 = .error .nameConflict) ↔
        ∃ b ∈ s.batches, strLower b.name = strLower nm)) := by
  constructor
  · obtain ⟨b0, hb0⟩ := hok
    have hn1 : n1 ≠ "" := by
      intro h1
      simp [createBatchInDb, h1] at hb0
    have hcf : createCheckConflict n1 s = false := by
      by_contra hc
      rw [Bool.not_eq_false] at hc
      simp [createBatchInDb, hn1, hc] at hb0
    have hfresh : (s.batches.any fun b => b.id == id1) = false := by
      by_contra hc
      rw [Bool.not_eq_false] at hc
      simp [createBatchInDb, hn1, hcf, hc] at hb0
    have hstate : (createBatchInDb id1 t1 n1 s).2 = createInsert id1 t1 n1 s := by
      simp [createBatchInDb, hn1, hcf, hfresh]
    have hn2 : n2 ≠ "" := by
      intro h2
      refine hn1 (strLower_eq_empty ?_)
      rw [hci, h2]
      rfl
    have hmem : mkNewBatch id1 n1 t1 ∈ (createInsert id1 t1 n1 s).batches := by
      simp [createInsert]
    have hcf2 : createCheckConflict n2 (createInsert id1 t1 n1 s) = true := by
      rw [createCheckConflict_iff]
      exact ⟨mkNewBatch id1 n1 t1, hmem, by simpa [mkNewBatch] using hci⟩
    rw [hstate]
    exact ⟨by simp [createBatchInDb, hn2, hcf2], by simp [createBatchInDb, hn2, hcf2]⟩
  · intro nm idn tn hnm
    rw [← createCheckConflict_iff]
    constructor
    · intro h
      by_contra hc
      rw [Bool.not_eq_true] at hc
      simp [createBatchInDb, hnm, hc] at h
      split at h <;> simp at h
    · intro h
      simp [createBatchInDb, hnm, h]

/-- Witness for `c4_name_conflict`: the scenario of the claim,
`createBatch("Foo")` then `createBatch("foo")` on an empty store. -/
theorem c4_witness :
    (createBatchInDb "id2" "t2" "foo" (createBatchInDb "id1" "t1" "Foo" dbEmpty).2).1
      = .error .nameConflict := by
  have h := c4_name_conflict dbEmpty "Foo" "foo" "id1" "id2" "t1" "t2" (by decide)
    ⟨mkNewBatch "id1" "Foo" "t1", by decide⟩
  exact h.1.1

/-! ### Claim C6 -/

/-- Claim C6: after a successful `deleteBatchAndPages(b)` no page with
`batchId == b` is retrievable via the index and `b` is absent from the
listed batches; when the call fails (transaction error/abort), the store is
exactly as before the call. -/
theorem c6_delete_cascade (s : DbState) (bid : String) :
    (getPagesForBatch bid (deleteBatchAndPages false bid s).2 = [] ∧
     ∀ b ∈ getAllBatchesFromDb (deleteBatchAndPages false bid s).2, b.id ≠ bid) ∧
    (∀ fl : Bool, ∀ e, (deleteBatchAndPages fl bid s).1 = .error e →
      (deleteBatchAndPages fl bid s).2 = s) := by
  refine ⟨⟨?_, ?_⟩, ?_⟩
  · show ((s.pages.filter (fun p => !(p.batchId == bid))).filter (fun p => p.batchId == bid)) = []
    rw [List.filter_filter]
    rw [List.filter_eq_nil_iff]
    intro a _
    cases h : a.batchId == bid <;> simp [h]
  · intro b hb
    have hb2 := mem_of_mem_sortBatchesByName hb
    have hb3 := List.mem_filter.mp hb2
    simpa using hb3.2
  · intro fl e he
    cases fl with
    | false => simp [deleteBatchAndPages] at he
    | true => rfl

/-- Witness for `c6_delete_cascade` on the concrete store `sampleState`. -/
theorem c6_witness :
    getPagesForBatch "b1" (deleteBatchAndPages false "b1" sampleState).2 = [] ∧
    (deleteBatchAndPages true "b1" sampleState).2 = sampleState :=
  ⟨(c6_delete_cascade sampleState "b1").1.1,
   (c6_delete_cascade sampleState "b1").2 true "Transaction failed" (by decide)⟩

end Webgrab

namespace Webgrab

/-! ### Claim C3 -/

theorem mem_putPage_self (p : Page) (ps : List Page) : p ∈ putPage p ps := by
  unfold putPage
  split
  · rename_i h
    rw [List.any_eq_true] at h
    obtain ⟨x, hx, hpx⟩ := h
    exact List.mem_map.mpr ⟨x, hx, by simp [hpx]⟩
  · simp

theorem find_replace_of_exists (p : Page) (ps : List Page)
    (hex : (ps.any fun x => x.url == p.url) = true) :
    (ps.map (fun x => if x.url == p.url then p else x)).find? (fun q => q.url == p.url)
      = some p := by
  induction ps with
  | nil => simp at hex
  | cons x xs ih =>
    cases hx : x.url == p.url with
    | true =>
      simp only [List.map_cons, hx, if_true]
      simp [List.find?]
    | false =>
      have hex' : (xs.any fun q => q.url == p.url) = true := by
        rcases List.any_eq_true.mp hex with ⟨y, hy, hpy⟩
        rcases List.mem_cons.mp hy with rfl | hy2
        · rw [hpy] at hx
          exact absurd hx (by simp)
        · exact List.any_eq_true.mpr ⟨y, hy2, hpy⟩
      simp only [List.map_cons, hx]
      rw [if_neg (by simp [hx])]
      rw [List.find?_cons_of_neg _ (by simp [hx])]
      exact ih hex'

theorem find_replace_by_id (bid : String) (b' b0 : Batch) (bs : List Batch)
    (hid : b'.id = b0.id) (hb0id : (b0.id == bid) = true)
    (hfind : bs.find? (fun b => b.id == bid) = some b0) :
    (bs.map (fun x => if x.id == b'.id then b' else x)).find? (fun b => b.id == bid)
      = some b' := by
  induction bs with
  | nil => simp at hfind
  | cons x xs ih =>
    cases hx : x.id == bid with
    | true =>
      have hxb0 : x = b0 := by
        rw [List.find?_cons_of_pos] at hfind
        · exact Option.some.inj hfind
        · exact hx
      subst hxb0
      rw [List.map_cons, if_pos (show (x.id == b'.id) = true by simp [hid])]
      rw [List.find?_cons_of_pos]
      rw [hid]
      exact hb0id
    | false =>
      have hfind' : xs.find? (fun b => b.id == bid) = some b0 := by
        rw [List.find?_cons_of_neg] at hfind
        · exact hfind
        · simp [hx]
      have hxne : (x.id == b'.id) = false := by
        rw [Bool.eq_false_iff]
        intro hcase
        rw [beq_iff_eq] at hcase
        rw [hcase, hid] at hx
        exact absurd hb0id (by simp [hx])
      rw [List.map_cons, if_neg (show ¬((x.id == b'.id) = true) by simp [hxne])]
      rw [List.find?_cons_of_neg]
      · exact ih hfind'
      · simp [hx]

theorem findBatch_putBatch_of_found (bid : String) (bs : List Batch) (b0 b' : Batch)
    (hfind : findBatch? bid bs = some b0) (hid : b'.id = b0.id) :
    findBatch? bid (putBatch b' bs) = some b' := by
  have hfind2 : bs.find? (fun b => b.id == bid) = some b0 := hfind
  have hb0id : (b0.id == bid) = true := by simpa using List.find?_some hfind2
  have hb0mem : b0 ∈ bs := List.mem_of_find?_eq_some hfind2
  unfold putBatch
  rw [if_pos (List.any_eq_true.mpr ⟨b0, hb0mem, by simp [hid]⟩)]
  exact find_replace_by_id bid b' b0 bs hid hb0id hfind2

/-- Claim C3: re-saving the same URL into the same batch right after a first
save leaves the batch's `pageCount` unchanged (whatever batch the id
denotes, found or not) and stores the second save's page record, hence its
`html_content` and `retrieved_at`. -/
theorem c3_idempotent_resave (s : DbState) (p1 p2 : Page)
    (hurl : p1.url = p2.url) (hbid : p1.batchId = p2.batchId) :
    ((findBatch? p2.batchId (addPageToDb p2 (addPageToDb p1 s).2).2.batches).map Batch.pageCount
      = (findBatch? p2.batchId (addPageToDb p1 s).2.batches).map Batch.pageCount) ∧
    findPage? p2.url (addPageToDb p2 (addPageToDb p1 s).2).2.pages = some p2 := by
  have hkeep : p1.batchId = p2.batchId := hbid
  clear hkeep
  set s1 := (addPageToDb p1 s).2 with hs1
  have hpg : p1 ∈ s1.pages := mem_putPage_self p1 s.pages
  have hex : pageExistsCheck p2.url s1 = true :=
    List.any_eq_true.mpr ⟨p1, hpg, by simp [hurl]⟩
  have hstep : (addPageToDb p2 s1).2 = savePageWrite true p2 s1 := by
    show savePageWrite (pageExistsCheck p2.url s1) p2 s1 = savePageWrite true p2 s1
    rw [hex]
  rw [hstep]
  constructor
  · show (findBatch? p2.batchId (savePageWrite true p2 s1).batches).map Batch.pageCount
      = (findBatch? p2.batchId s1.batches).map Batch.pageCount
    unfold savePageWrite
    cases hfind : findBatch? p2.batchId s1.batches with
    | none => simp [hfind]
    | some b0 =>
      simp only [hfind, if_true]
      rw [findBatch_putBatch_of_found p2.batchId s1.batches b0
        { b0 with lastSavedAt := some p2.retrieved_at } hfind rfl]
      simp
  · show findPage? p2.url (putPage p2 s1.pages) = some p2
    unfold putPage findPage?
    rw [if_pos (show (s1.pages.any fun x => x.url == p2.url) = true from hex)]
    exact find_replace_of_exists p2 s1.pages hex

/-- Witness for `c3_idempotent_resave`: the same URL saved twice into batch
`bA` of `raceState`. -/
theorem c3_witness :
    (findBatch? "bA" (addPageToDb racePg2 (addPageToDb racePg1 raceState).2).2.batches).map Batch.pageCount
      = (findBatch? "bA" (addPageToDb racePg1 raceState).2.batches).map Batch.pageCount ∧
    findPage? "https://r.test/" (addPageToDb racePg2 (addPageToDb racePg1 raceState).2).2.pages
      = some racePg2 :=
  c3_idempotent_resave raceState racePg1 racePg2 rfl rfl

end Webgrab


namespace Webgrab

/-! ### Claim C2 -/

theorem countP_replace_pages (p : Page) (bid : String) (ps : List Page)
    (hsame : ∀ q ∈ ps, q.url = p.url → q.batchId = p.batchId) :
    (ps.map (fun x => if x.url == p.url then p else x)).countP (fun q => q.batchId == bid)
      = ps.countP (fun q => q.batchId == bid) := by
  induction ps with
  | nil => rfl
  | cons x xs ih =>
    have ih' := ih (fun q hq h => hsame q (List.mem_cons_of_mem _ hq) h)
    simp only [List.map_cons, List.countP_cons, ih']
    cases hx : x.url == p.url with
    | true =>
      have hb : x.batchId = p.batchId := hsame x (List.mem_cons_self _ _) (by simpa using hx)
      simp [hx, hb]
    | false => simp [hx]

theorem savePage_preserves_count (s : DbState) (p : Page)
    (hc : countConsistent s)
    (hsame : ∀ q ∈ s.pages, q.url = p.url → q.batchId = p.batchId) :
    countConsistent (addPageToDb p s).2 := by
  show countConsistent (savePageWrite (pageExistsCheck p.url s) p s)
  cases he : pageExistsCheck p.url s with
  | true =>
    have hpages : ∀ bid, ((putPage p s.pages).filter (fun q => q.batchId == bid)).length
        = (s.pages.filter (fun q => q.batchId == bid)).length := by
      intro bid
      unfold putPage
      rw [if_pos (show (s.pages.any fun x => x.url == p.url) = true from he)]
      rw [← List.countP_eq_length_filter, ← List.countP_eq_length_filter]
      exact countP_replace_pages p bid s.pages hsame
    cases hfind : findBatch? p.batchId s.batches with
    | none =>
      have hred : savePageWrite true p s = ⟨s.batches, putPage p s.pages⟩ := by
        unfold savePageWrite
        rw [hfind]
      rw [hred]
      intro b hb
      rw [hc b hb]
      exact (hpages b.id).symm
    | some b0 =>
      have hfind2 : s.batches.find? (fun b => b.id == p.batchId) = some b0 := hfind
      have hb0mem : b0 ∈ s.batches := List.mem_of_find?_eq_some hfind2
      have hred : savePageWrite true p s
          = ⟨putBatch { b0 with lastSavedAt := some p.retrieved_at } s.batches,
             putPage p s.pages⟩ := by
        unfold savePageWrite
        rw [hfind]
        rfl
      rw [hred]
      intro b hb
      unfold putBatch at hb
      rw [if_pos (List.any_eq_true.mpr ⟨b0, hb0mem, by simp⟩)] at hb
      obtain ⟨x, hx, hfx⟩ := List.mem_map.mp hb
      rw [hpages b.id]
      by_cases hcond : (x.id == b0.id) = true
      · rw [if_pos (show (x.id
            == ({ b0 with lastSavedAt := some p.retrieved_at } : Batch).id) = true
            from hcond)] at hfx
        rw [← hfx]
        exact hc b0 hb0mem
      · rw [if_neg (show ¬ (x.id
            == ({ b0 with lastSavedAt := some p.retrieved_at } : Batch).id) = true
            from hcond)] at hfx
        rw [← hfx]
        exact hc x hx
  | false =>
    have hpages : ∀ bid, ((putPage p s.pages).filter (fun q => q.batchId == bid)).length
        = (s.pages.filter (fun q => q.batchId == bid)).length
          + (if (p.batchId == bid) = true then 1 else 0) := by
      intro bid
      unfold putPage
      rw [if_neg (by simp [show (s.pages.any fun x => x.url == p.url) = false from he])]
      rw [List.filter_append, List.length_append]
      congr 1
      cases hp : p.batchId == bid <;> simp [hp]
    cases hfind : findBatch? p.batchId s.batches with
    | none =>
      have hnone : ∀ x ∈ s.batches, ¬ ((x.id == p.batchId) = true) :=
        List.find?_eq_none.mp
          (show s.batches.find? (fun b => b.id == p.batchId) = none from hfind)
      have hred : savePageWrite false p s = ⟨s.batches, putPage p s.pages⟩ := by
        unfold savePageWrite
        rw [hfind]
      rw [hred]
      intro b hb
      rw [hpages b.id]
      have hne : (p.batchId == b.id) = false := by
        rw [Bool.eq_false_iff]
        intro hcontra
        rw [beq_iff_eq] at hcontra
        exact hnone b hb (by rw [beq_iff_eq]; exact hcontra.symm)
      rw [hne]
      simp [hc b hb]
    | some b0 =>
      have hfind2 : s.batches.find? (fun b => b.id == p.batchId) = some b0 := hfind
      have hb0mem : b0 ∈ s.batches := List.mem_of_find?_eq_some hfind2
      have hb0id : b0.id = p.batchId := by
        have h := List.find?_some hfind2
        rwa [beq_iff_eq] at h
      have hred : savePageWrite false p s
          = ⟨putBatch { b0 with pageCount := b0.pageCount + 1, lastSavedAt := some p.retrieved_at } s.batches, putPage p s.pages⟩ := by
        unfold savePageWrite
        rw [hfind]
        rfl
      rw [hred]
      intro b hb
      unfold putBatch at hb
      rw [if_pos (List.any_eq_true.mpr ⟨b0, hb0mem, by simp⟩)] at hb
      obtain ⟨x, hx, hfx⟩ := List.mem_map.mp hb
      rw [hpages b.id]
      by_cases hcond : (x.id == b0.id) = true
      · rw [if_pos (show (x.id == ({ b0 with pageCount := b0.pageCount + 1, lastSavedAt := some p.retrieved_at } : Batch).id) = true from hcond)] at hfx
        rw [← hfx]
        show b0.pageCount + 1 = (s.pages.filter (fun q => q.batchId == b0.id)).length
          + (if (p.batchId == b0.id) = true then 1 else 0)
        rw [show (p.batchId == b0.id) = true by rw [beq_iff_eq]; exact hb0id.symm]
        rw [hc b0 hb0mem]
        rfl
      · rw [if_neg (show ¬ (x.id == ({ b0 with pageCount := b0.pageCount + 1, lastSavedAt := some p.retrieved_at } : Batch).id) = true from hcond)] at hfx
        rw [← hfx]
        have hne : (p.batchId == x.id) = false := by
          rw [Bool.eq_false_iff]
          intro hcontra
          rw [beq_iff_eq] at hcontra
          rw [beq_iff_eq] at hcond
          exact hcond (by rw [hb0id, ← hcontra])
        rw [hne]
        simp [hc x hx]

theorem createBatch_preserves_count (s : DbState) (newId now name : String)
    (hc : countConsistent s)
    (hfresh : ∀ q ∈ s.pages, q.batchId ≠ newId) :
    countConsistent (createBatchInDb newId now name s).2 := by
  unfold createBatchInDb
  by_cases h1 : name = ""
  · simpa [h1] using hc
  rw [if_neg h1]
  cases h2 : createCheckConflict name s with
  | true => simpa using hc
  | false =>
    rw [if_neg (by simp)]
    cases h3 : s.batches.any (fun b => b.id == newId) with
    | true => simpa using hc
    | false =>
      rw [if_neg (by simp)]
      intro b hb
      rcases List.mem_append.mp hb with hb2 | hb2
      · exact hc b hb2
      · rcases List.mem_singleton.mp hb2 with rfl
        show 0 = (s.pages.filter (fun q => q.batchId == newId)).length
        rw [List.filter_eq_nil_iff.mpr (fun q hq => by simp [hfresh q hq])]
        rfl

theorem deleteBatch_preserves_count (s : DbState) (fl : Bool) (bid : String)
    (hc : countConsistent s) :
    countConsistent (deleteBatchAndPages fl bid s).2 := by
  cases fl with
  | true => exact hc
  | false =>
    show countConsistent ⟨s.batches.filter (fun b => !(b.id == bid)),
      s.pages.filter (fun p => !(p.batchId == bid))⟩
    intro b hb
    rcases List.mem_filter.mp hb with ⟨hbmem, hbid⟩
    rw [hc b hbmem]
    rw [List.filter_filter]
    congr 1
    apply List.filter_congr
    intro a _
    cases ha : a.batchId == b.id with
    | true =>
      have : a.batchId = b.id := by rwa [beq_iff_eq] at ha
      have hne : (a.batchId == bid) = false := by
        rw [this]
        simpa using hbid
      simp [hne]
    | false => simp

/-- Claim C2, as stated, is false on the code: re-saving a URL that already
exists under batch `idA` into batch `idB` re-homes the page record without
adjusting either `pageCount`, so after the save batch `idB` has
`pageCount = 0` while one page record is linked to it. -/
theorem c2_counterexample :
    (findBatch? "idB" crossBatchState.batches).map Batch.pageCount = some 0 ∧
    (getPagesForBatch "idB" crossBatchState).length = 1 ∧
    ¬ countConsistent crossBatchState := by decide

/-- Claim C2 (amended): the pageCount invariant is preserved by each
operation provided `createBatchInDb` is given an id no existing page
references (fresh UUIDs) and `addPageToDb` never re-saves an existing URL
under a different `batchId`; without the latter restriction the invariant
fails, per `c2_counterexample`. -/
theorem c2_amended (s : DbState) (hc : countConsistent s) :
    (∀ newId now name, (∀ q ∈ s.pages, q.batchId ≠ newId) →
        countConsistent (createBatchInDb newId now name s).2) ∧
    (∀ p : Page, (∀ q ∈ s.pages, q.url = p.url → q.batchId = p.batchId) →
        countConsistent (addPageToDb p s).2) ∧
    (∀ fl bid, countConsistent (deleteBatchAndPages fl bid s).2) :=
  ⟨fun newId now name hfresh => createBatch_preserves_count s newId now name hc hfresh,
   fun p hsame => savePage_preserves_count s p hc hsame,
   fun fl bid => deleteBatch_preserves_count s fl bid hc⟩

/-- Witness for `c2_amended`: a concrete create-then-save run. -/
theorem c2_amended_witness :
    countConsistent (addPageToDb pgA (createBatchInDb "idA" "t" "A" dbEmpty).2).2 :=
  (c2_amended (createBatchInDb "idA" "t" "A" dbEmpty).2 (by decide)).2.1 pgA (by decide)


end Webgrab

namespace Webgrab

/-! ### Claim C8 -/

/-- Claim C8 concerns the interleaving the source permits: both
`createBatchInDb`'s uniqueness check and `addPageToDb`'s exists-check run in
their own (readonly) transaction before the separate readwrite transaction
that writes, so the check and the write are not one serializable unit.
First part: two concurrent `createBatch("Acme")` calls on an empty store can
both run the check (no conflict on the empty pre-state) and then both run
the insert, leaving two batches with distinct ids and the same
case-insensitive name — an outcome no serial order allows, since the
serialized second call fails with the name conflict. Second part: two
concurrent saves of the same new URL into batch `bA` can both run the
exists-check (false on the pre-state) and then both run the write phase,
leaving `pageCount = 2` with a single stored page, violating the count
invariant, while the serialized execution leaves `pageCount = 1`. -/
theorem c8_check_write_race :
    (createCheckConflict "Acme" dbEmpty = false ∧
     (∃ b1 ∈ (createInsert "id2" "t2" "Acme" (createInsert "id1" "t1" "Acme" dbEmpty)).batches,
      ∃ b2 ∈ (createInsert "id2" "t2" "Acme" (createInsert "id1" "t1" "Acme" dbEmpty)).batches,
        b1.id ≠ b2.id ∧ strLower b1.name = strLower b2.name) ∧
     (createBatchInDb "id2" "t2" "Acme" (createBatchInDb "id1" "t1" "Acme" dbEmpty).2).1
        = .error .nameConflict) ∧
    (pageExistsCheck racePg1.url raceState = false ∧
     pageExistsCheck racePg2.url raceState = false ∧
     (findBatch? "bA" (savePageWrite false racePg2 (savePageWrite false racePg1 raceState)).batches).map Batch.pageCount
        = some 2 ∧
     (getPagesForBatch "bA" (savePageWrite false racePg2 (savePageWrite false racePg1 raceState))).length = 1 ∧
     ¬ countConsistent (savePageWrite false racePg2 (savePageWrite false racePg1 raceState)) ∧
     (findBatch? "bA" (addPageToDb racePg2 (addPageToDb racePg1 raceState).2).2.batches).map Batch.pageCount
        = some 1) := by decide

end Webgrab
